import Mathlib

/-!
Shallow embedding of `src/streamlit_app.py` (air-quality MQTT dashboard).

The embedded parts are the ones the verified properties need:
the MQTT message callback (`on_message`, lines 55-63), the drain loop over
the handoff queue (lines 85-135) including payload decoding with defaults,
inference, outbound publish and the bounded history buffer, and the
dataframe/CSV construction used by the download button (lines 279-306).

Numeric values are modelled as rationals; Python `round(x, 1)` is modelled
as exact round-half-to-even on rationals at one decimal place.  The
pre-trained classifier artifact is modelled as an abstract record of its
three parts (predicted class index, class probabilities, label decoding),
since the spec treats it as an opaque external collaborator.
-/

namespace AirQuality

/-- Inbound topic constant `TOPIC_DATA` (line 15 of the source). -/
def TOPIC_DATA : String := "net4think/air_quality/data"

/-- Outbound topic constant `TOPIC_PRED` (line 16 of the source). -/
def TOPIC_PRED : String := "net4think/air_quality/prediction"

/-- The history buffer bound: the literal `1000` on line 134
(`if len(st.session_state.history) > 1000: pop(0)`). -/
def MAX_HISTORY : Nat := 1000

/-- A decoded inbound JSON payload.  Each field the drain loop reads with
`payload.get` is optional; absent fields are `none`. -/
structure Payload where
  temperature : Option ℚ
  humidity : Option ℚ
  gas_ppm : Option ℚ
  timestamp : Option String
deriving Repr, DecidableEq

/-- `st.session_state.sensor_data`: the current reading (lines 29-32, 96-98). -/
structure SensorData where
  temp : ℚ
  hum : ℚ
  gas : ℚ
  timestamp : String
deriving Repr, DecidableEq

/-- `st.session_state.pred_result`: the current prediction (lines 34-37, 110-112). -/
structure PredResult where
  label : String
  confidence : ℚ
deriving Repr, DecidableEq

/-- One element of `st.session_state.history` (`new_record`, lines 124-130). -/
structure HistoryEntry where
  time : String
  Temp : ℚ
  Hum : ℚ
  Gas : ℚ
  Status : String
deriving Repr, DecidableEq

/-- An outbound message published to `TOPIC_PRED` (`resp`, lines 116-120). -/
structure Outbound where
  label : String
  confidence : ℚ
  device_id : String
deriving Repr, DecidableEq

/-- The loaded model artifact: classifier (`predict` as a class index and
`predict_proba` as a probability list), and the label encoder
(`inverse_transform`).  Feature binding order (temp, hum, gas) is fixed at
the call site on line 104. -/
structure Model where
  predictIdx : ℚ → ℚ → ℚ → Nat
  proba : ℚ → ℚ → ℚ → List ℚ
  inverseTransform : Nat → String

/-- Session-wide application state mutated only by the drain loop, plus the
trace of outbound publishes (line 121). -/
structure AppState where
  sensor_data : SensorData
  pred_result : PredResult
  history : List HistoryEntry
  published : List Outbound
deriving Repr

/-- Initial session state (lines 29-40), with no publishes yet. -/
def initialState : AppState :=
  { sensor_data := { temp := 0, hum := 0, gas := 0, timestamp := "-" }
    pred_result := { label := "Menunggu...", confidence := 0 }
    history := []
    published := [] }

/-- Round-half-to-even of a rational to the nearest integer, the idealised
semantics of Python built-in `round`. -/
def roundHalfEven (q : ℚ) : ℤ :=
  let f : ℤ := ⌊q⌋
  let r : ℚ := q - f
  if r < 1/2 then f
  else if 1/2 < r then f + 1
  else if f % 2 = 0 then f else f + 1

/-- Python `round(x, 1)`: round to one decimal place, half to even. -/
def pyRound1 (q : ℚ) : ℚ := (roundHalfEven (q * 10) : ℚ) / 10

/-- An MQTT message as delivered to the callback: a topic and the result of
attempting `json.loads(msg.payload.decode())`; `none` models a payload whose
decoding raises (non-JSON bytes). -/
structure MqttMsg where
  topic : String
  payload : Option Payload

/-- `on_message` (lines 55-63): on successful decode, push
`(topic, payload)` into the handoff queue; on decode failure the exception
is caught, the error is printed and the message is dropped, so the queue is
unchanged.  The queue is modelled as a list in FIFO order (head = oldest). -/
def on_message (q : List (String × Payload)) (msg : MqttMsg) : List (String × Payload) :=
  match msg.payload with
  | some p => q ++ [(msg.topic, p)]
  | none => q

/-- The inference block for a loaded model (lines 104-108): predicted class
index, decoded label, and confidence `round(proba[pred_idx] * 100, 1)`.
`proba[pred_idx]` is modelled with `List.getD` (default 0 out of range). -/
def inferenceOf (m : Model) (temp hum gas : ℚ) : String × ℚ :=
  let pred_idx := m.predictIdx temp hum gas
  let pred_label := m.inverseTransform pred_idx
  let proba := m.proba temp hum gas
  (pred_label, pyRound1 (proba.getD pred_idx 0 * 100))

/-- The per-message inference result (lines 101-108): the initial values
`pred_label = "N/A"`, `confidence = 0` are kept when no model is loaded,
and otherwise replaced by the classifier output. -/
def inferenceResult (model : Option Model) (temp hum gas : ℚ) : String × ℚ :=
  match model with
  | none => ("N/A", (0 : ℚ))
  | some m => inferenceOf m temp hum gas

/-- One iteration of the drain loop body (lines 86-135) on a popped
`(topic, payload)` item.  `model` is the loaded artifact or `none`
(load failure, lines 43-52); `hasClient` is whether `mqtt_client` is not
`None`; `now` is `datetime.now().strftime` of `HH:MM:SS`. -/
def processMessage (model : Option Model) (hasClient : Bool) (now : String)
    (s : AppState) (msg : String × Payload) : AppState :=
  if msg.1 = TOPIC_DATA then
    let temp := msg.2.temperature.getD 0
    let hum := msg.2.humidity.getD 0
    let gas := msg.2.gas_ppm.getD 0
    let timestamp := msg.2.timestamp.getD now
    let s1 : AppState := { s with sensor_data := ⟨temp, hum, gas, timestamp⟩ }
    let inf : String × ℚ := inferenceResult model temp hum gas
    let s2 : AppState :=
      match model with
      | none => s1
      | some _ =>
        let s2a : AppState := { s1 with pred_result := ⟨inf.1, inf.2⟩ }
        if hasClient then
          { s2a with published := s2a.published ++ [⟨inf.1, inf.2, "Streamlit-Cloud"⟩] }
        else s2a
    let new_record : HistoryEntry := ⟨timestamp, temp, hum, gas, inf.1⟩
    let h1 := s2.history ++ [new_record]
    { s2 with history := if h1.length > MAX_HISTORY then h1.tail else h1 }
  else s

/-- The full drain (`while not queue.empty(): get` loop, lines 85-135):
process every queued item in FIFO order. -/
def drain (model : Option Model) (hasClient : Bool) (now : String)
    (s : AppState) (msgs : List (String × Payload)) : AppState :=
  msgs.foldl (processMessage model hasClient now) s

/-- The history entry a matching payload produces (fields of `new_record`,
lines 124-130, expressed from the raw payload). -/
def recordOf (model : Option Model) (now : String) (p : Payload) : HistoryEntry :=
  { time := p.timestamp.getD now
    Temp := p.temperature.getD 0
    Hum := p.humidity.getD 0
    Gas := p.gas_ppm.getD 0
    Status :=
      (inferenceResult model (p.temperature.getD 0) (p.humidity.getD 0) (p.gas_ppm.getD 0)).1 }

/-- The maximum class probability, as the spec describes the confidence
source: the fold of `max` over the probability vector.  This definition
follows the wording of the spec, to be compared with the code expression
`proba[pred_idx]`. -/
def maxClassProbability (m : Model) (temp hum gas : ℚ) : ℚ :=
  (m.proba temp hum gas).foldr max 0

/-- The CSV header of the downloaded dataframe: the dataframe built from the
history records has columns `time, Temp, Hum, Gas, Status`, and
`reset_index` on line 283 prepends the sequential `step` column before
`to_csv` is called on line 301. -/
def csvHeader : List String := ["step", "time", "Temp", "Hum", "Gas", "Status"]

/-- One data row of the exported CSV: the `step` index followed by the
fields of the history entry, in dataframe column order. -/
def csvRow (i : Nat) (e : HistoryEntry) : List String :=
  [toString i, e.time, toString e.Temp, toString e.Hum, toString e.Gas, e.Status]

/-- The cell grid of `df.to_csv(index=False)` (line 301): a header row
followed by one row per history entry, carrying its `reset_index` step. -/
def csvCells (hist : List HistoryEntry) : List (List String) :=
  csvHeader :: (hist.enum.map fun p => csvRow p.1 p.2)

/-- The exported CSV text: comma-separated cells, newline-separated rows. -/
def csvText (hist : List HistoryEntry) : String :=
  String.intercalate "\n" ((csvCells hist).map (String.intercalate ","))

/-- Invariant relating the history tail to the current reading: whenever the
history is non-empty, its last entry was built from the same decoded values
that the current `sensor_data` holds. -/
def lastMatchesCurrent (s : AppState) : Prop :=
  ∀ e, s.history.getLast? = some e →
    e.time = s.sensor_data.timestamp ∧ e.Temp = s.sensor_data.temp ∧
    e.Hum = s.sensor_data.hum ∧ e.Gas = s.sensor_data.gas

lemma processMessage_other (model : Option Model) (hc : Bool) (now : String)
    (s : AppState) (msg : String × Payload) (ht : msg.1 ≠ TOPIC_DATA) :
    processMessage model hc now s msg = s := by
  simp [processMessage, ht]

lemma processMessage_data_history (model : Option Model) (hc : Bool) (now : String)
    (s : AppState) (msg : String × Payload) (ht : msg.1 = TOPIC_DATA) :
    (processMessage model hc now s msg).history =
      if (s.history ++ [recordOf model now msg.2]).length > MAX_HISTORY
      then (s.history ++ [recordOf model now msg.2]).tail
      else s.history ++ [recordOf model now msg.2] := by
  cases model <;> cases hc <;>
    simp [processMessage, recordOf, inferenceResult, ht]

lemma processMessage_data_sensor (model : Option Model) (hc : Bool) (now : String)
    (s : AppState) (msg : String × Payload) (ht : msg.1 = TOPIC_DATA) :
    (processMessage model hc now s msg).sensor_data =
      ⟨msg.2.temperature.getD 0, msg.2.humidity.getD 0,
       msg.2.gas_ppm.getD 0, msg.2.timestamp.getD now⟩ := by
  cases model <;> cases hc <;> simp [processMessage, ht]

lemma processMessage_none_published (hc : Bool) (now : String)
    (s : AppState) (msg : String × Payload) :
    (processMessage none hc now s msg).published = s.published := by
  by_cases ht : msg.1 = TOPIC_DATA <;> simp [processMessage, ht]

lemma processMessage_some_pred (m : Model) (hc : Bool) (now : String)
    (s : AppState) (msg : String × Payload) (ht : msg.1 = TOPIC_DATA) :
    (processMessage (some m) hc now s msg).pred_result =
      ⟨(inferenceOf m (msg.2.temperature.getD 0) (msg.2.humidity.getD 0)
          (msg.2.gas_ppm.getD 0)).1,
       (inferenceOf m (msg.2.temperature.getD 0) (msg.2.humidity.getD 0)
          (msg.2.gas_ppm.getD 0)).2⟩ := by
  cases hc <;> simp [processMessage, inferenceResult, ht]

lemma processMessage_data_getLast (model : Option Model) (hc : Bool) (now : String)
    (s : AppState) (msg : String × Payload) (ht : msg.1 = TOPIC_DATA) :
    (processMessage model hc now s msg).history.getLast? =
      some (recordOf model now msg.2) := by
  rw [processMessage_data_history model hc now s msg ht]
  by_cases hlen : (s.history ++ [recordOf model now msg.2]).length > MAX_HISTORY
  · rw [if_pos hlen]
    have hne : s.history ≠ [] := by
      intro he
      rw [he] at hlen
      simp [MAX_HISTORY] at hlen
    rw [List.tail_append_singleton_of_ne_nil hne, List.getLast?_concat]
  · rw [if_neg hlen, List.getLast?_concat]

lemma processMessage_history_length_le (model : Option Model) (hc : Bool)
    (now : String) (s : AppState) (msg : String × Payload)
    (hs : s.history.length ≤ MAX_HISTORY) :
    (processMessage model hc now s msg).history.length ≤ MAX_HISTORY := by
  by_cases ht : msg.1 = TOPIC_DATA
  · rw [processMessage_data_history model hc now s msg ht]
    by_cases hlen : (s.history ++ [recordOf model now msg.2]).length > MAX_HISTORY
    · rw [if_pos hlen]
      simp only [List.length_tail, List.length_append, List.length_singleton]
      omega
    · rw [if_neg hlen]
      simp only [List.length_append, List.length_singleton] at hlen ⊢
      omega
  · rw [processMessage_other model hc now s msg ht]
    exact hs

lemma drain_history_length_le (model : Option Model) (hc : Bool) (now : String)
    (msgs : List (String × Payload)) (s : AppState)
    (hs : s.history.length ≤ MAX_HISTORY) :
    (drain model hc now s msgs).history.length ≤ MAX_HISTORY := by
  induction msgs generalizing s with
  | nil => exact hs
  | cons m ms ih =>
    exact ih (processMessage model hc now s m)
      (processMessage_history_length_le model hc now s m hs)

lemma drain_history_all_data (model : Option Model) (hc : Bool) (now : String)
    (msgs : List (String × Payload)) (s : AppState)
    (hall : ∀ x ∈ msgs, x.1 = TOPIC_DATA)
    (hs : s.history.length ≤ MAX_HISTORY) :
    (drain model hc now s msgs).history =
      (s.history ++ msgs.map fun x => recordOf model now x.2).drop
        (s.history.length + msgs.length - MAX_HISTORY) := by
  induction msgs generalizing s with
  | nil =>
    simp only [drain, List.foldl_nil, List.map_nil, List.append_nil,
      List.length_nil, Nat.add_zero]
    rw [Nat.sub_eq_zero_of_le hs, List.drop_zero]
  | cons m ms ih =>
    have hm : m.1 = TOPIC_DATA := hall m (by simp)
    have hrest : ∀ x ∈ ms, x.1 = TOPIC_DATA := fun x hx => hall x (by simp [hx])
    have hh := processMessage_data_history model hc now s m hm
    have hstep : drain model hc now s (m :: ms) =
        drain model hc now (processMessage model hc now s m) ms := rfl
    by_cases hlen : (s.history ++ [recordOf model now m.2]).length > MAX_HISTORY
    · have hlenle : (processMessage model hc now s m).history.length ≤ MAX_HISTORY := by
        rw [hh, if_pos hlen]
        simp only [List.length_tail, List.length_append, List.length_singleton]
        omega
      have heq := ih (processMessage model hc now s m) hrest hlenle
      rw [hstep, heq, hh, if_pos hlen]
      have hHlen : s.history.length = MAX_HISTORY := by
        simp only [List.length_append, List.length_singleton] at hlen
        omega
      have hne : s.history ≠ [] := by
        intro he
        rw [he] at hHlen
        simp [MAX_HISTORY] at hHlen
      obtain ⟨a, t, hat⟩ : ∃ a t, s.history = a :: t :=
        List.exists_cons_of_ne_nil hne
      have hT : t.length + 1 = MAX_HISTORY := by
        rw [hat] at hHlen
        simpa using hHlen
      rw [hat]
      simp only [List.cons_append, List.tail_cons, List.length_cons,
        List.length_append, List.length_singleton, List.length_nil, Nat.zero_add,
        List.map_cons, List.length_map, List.append_assoc, List.singleton_append,
        List.nil_append]
      rw [show t.length + 1 + ms.length - MAX_HISTORY = ms.length from by omega]
      rw [show t.length + 1 + (ms.length + 1) - MAX_HISTORY = ms.length + 1 from by omega]
      rw [List.drop_succ_cons]
    · have hlenle : (processMessage model hc now s m).history.length ≤ MAX_HISTORY := by
        rw [hh, if_neg hlen]
        simp only [List.length_append, List.length_singleton] at hlen ⊢
        omega
      have heq := ih (processMessage model hc now s m) hrest hlenle
      rw [hstep, heq, hh, if_neg hlen]
      simp only [List.length_append, List.length_singleton, List.length_cons,
        List.length_nil, Nat.zero_add, List.append_assoc, List.singleton_append,
        List.map_cons]
      rw [show s.history.length + 1 + ms.length - MAX_HISTORY
          = s.history.length + (ms.length + 1) - MAX_HISTORY from by omega]

lemma processMessage_lastMatches (model : Option Model) (hc : Bool) (now : String)
    (s : AppState) (msg : String × Payload) (hs : lastMatchesCurrent s) :
    lastMatchesCurrent (processMessage model hc now s msg) := by
  by_cases ht : msg.1 = TOPIC_DATA
  · intro e he
    rw [processMessage_data_getLast model hc now s msg ht] at he
    rw [processMessage_data_sensor model hc now s msg ht]
    cases he
    simp [recordOf]
  · rw [processMessage_other model hc now s msg ht]
    exact hs

lemma drain_lastMatches (model : Option Model) (hc : Bool) (now : String)
    (msgs : List (String × Payload)) (s : AppState) (hs : lastMatchesCurrent s) :
    lastMatchesCurrent (drain model hc now s msgs) := by
  induction msgs generalizing s with
  | nil => exact hs
  | cons m ms ih =>
    exact ih (processMessage model hc now s m)
      (processMessage_lastMatches model hc now s m hs)

/-- A fully populated sample payload, used in concrete instantiations. -/
def pFull : Payload := ⟨some 25, some 40, some 100, some "12:00:00"⟩

/-- A sample history entry, used in concrete instantiations. -/
def eSample : HistoryEntry := ⟨"12:00:00", 25, 40, 100, "Baik"⟩

/-- A session state whose history is exactly at the capacity bound. -/
def capState : AppState := { initialState with history := List.replicate 1000 eSample }

/-- MAX_HISTORY plus one identical inbound data messages. -/
def msgs1001 : List (String × Payload) := List.replicate 1001 (TOPIC_DATA, pFull)

/-- A small concrete model artifact, used in concrete instantiations. -/
def wModel : Model :=
  { predictIdx := fun _ _ _ => 1
    proba := fun _ _ _ => [1/4, 1/2, 1/4]
    inverseTransform := fun i => if i = 1 then "Sedang" else "Baik" }

/-- C1: for every valid inbound payload drained with the expected inbound
topic, the HistoryEntry appended to the history (the last entry of the
snapshot) has time, temperature, humidity and gas equal to the decoded
payload values, where a missing numeric field defaults to 0 and a missing
timestamp defaults to the current local time string passed as `now`. -/
theorem decode_append_roundtrip (model : Option Model) (hc : Bool) (now : String)
    (s : AppState) (msg : String × Payload) (ht : msg.1 = TOPIC_DATA) :
    (processMessage model hc now s msg).history.getLast? = some (recordOf model now msg.2)
    ∧ (recordOf model now msg.2).time = msg.2.timestamp.getD now
    ∧ (recordOf model now msg.2).Temp = msg.2.temperature.getD 0
    ∧ (recordOf model now msg.2).Hum = msg.2.humidity.getD 0
    ∧ (recordOf model now msg.2).Gas = msg.2.gas_ppm.getD 0 :=
  ⟨processMessage_data_getLast model hc now s msg ht, rfl, rfl, rfl, rfl⟩

/- Concrete instantiation of `decode_append_roundtrip`, on a payload with a
missing timestamp. -/
theorem decode_append_roundtrip_check :
    (TOPIC_DATA, (⟨some 25, some 40, some 100, none⟩ : Payload)).1 = TOPIC_DATA
    ∧ ((processMessage none false "09:00:00" initialState
          (TOPIC_DATA, ⟨some 25, some 40, some 100, none⟩)).history.getLast?
        = some (recordOf none "09:00:00" ⟨some 25, some 40, some 100, none⟩)
      ∧ (recordOf none "09:00:00" (⟨some 25, some 40, some 100, none⟩ : Payload)).time
        = (some 25, some 40, some 100, none).2.2.2.getD "09:00:00"
      ∧ (recordOf none "09:00:00" (⟨some 25, some 40, some 100, none⟩ : Payload)).Temp
        = Option.getD (some 25) 0
      ∧ (recordOf none "09:00:00" (⟨some 25, some 40, some 100, none⟩ : Payload)).Hum
        = Option.getD (some 40) 0
      ∧ (recordOf none "09:00:00" (⟨some 25, some 40, some 100, none⟩ : Payload)).Gas
        = Option.getD (some 100) 0) :=
  ⟨rfl, decode_append_roundtrip none false "09:00:00" initialState
    (TOPIC_DATA, ⟨some 25, some 40, some 100, none⟩) rfl⟩

/-- C2: for every sequence of drained messages, the history length never
exceeds MAX_HISTORY (1000 in this variant), provided it started within the
bound. -/
theorem history_length_bounded (model : Option Model) (hc : Bool) (now : String)
    (msgs : List (String × Payload)) (s : AppState)
    (hs : s.history.length ≤ MAX_HISTORY) :
    (drain model hc now s msgs).history.length ≤ MAX_HISTORY :=
  drain_history_length_le model hc now msgs s hs

/- Concrete instantiation of `history_length_bounded` from the initial
session state. -/
theorem history_length_bounded_check :
    initialState.history.length ≤ MAX_HISTORY
    ∧ (drain none false "09:00:00" initialState [(TOPIC_DATA, pFull)]).history.length
        ≤ MAX_HISTORY :=
  ⟨by decide, history_length_bounded none false "09:00:00" [(TOPIC_DATA, pFull)]
    initialState (by decide)⟩

/-- C3: appending to a history at capacity evicts exactly the head entry and
keeps the rest in order; pushing MAX_HISTORY + 1 data messages into an empty
store leaves MAX_HISTORY entries whose first entry is the one built from the
second pushed message. -/
theorem append_at_capacity_evicts_head (model : Option Model) (hc : Bool) (now : String) :
    (∀ (s : AppState) (msg : String × Payload), msg.1 = TOPIC_DATA →
        s.history.length = MAX_HISTORY →
        (processMessage model hc now s msg).history =
          s.history.tail ++ [recordOf model now msg.2])
    ∧ (∀ msgs : List (String × Payload), (∀ x ∈ msgs, x.1 = TOPIC_DATA) →
        msgs.length = MAX_HISTORY + 1 →
        (drain model hc now initialState msgs).history =
            (msgs.map fun x => recordOf model now x.2).tail
          ∧ (drain model hc now initialState msgs).history.length = MAX_HISTORY
          ∧ (drain model hc now initialState msgs).history.head? =
              (msgs.map fun x => recordOf model now x.2)[1]?) := by
  constructor
  · intro s msg ht hcap
    rw [processMessage_data_history model hc now s msg ht]
    have hlen : (s.history ++ [recordOf model now msg.2]).length > MAX_HISTORY := by
      simp [hcap]
    rw [if_pos hlen]
    have hne : s.history ≠ [] := by
      intro he
      rw [he] at hcap
      simp [MAX_HISTORY] at hcap
    rw [List.tail_append_singleton_of_ne_nil hne]
  · intro msgs hall hlen
    have h := drain_history_all_data model hc now msgs initialState hall
      (by simp [initialState])
    rw [show initialState.history = [] from rfl] at h
    simp only [List.nil_append, List.length_nil, Nat.zero_add] at h
    rw [hlen, show MAX_HISTORY + 1 - MAX_HISTORY = 1 from by omega] at h
    refine ⟨by rw [h, List.drop_one], ?_, ?_⟩
    · rw [h]
      simp [hlen]
    · rw [h]
      exact List.head?_drop _ 1

/- Concrete instantiation of `append_at_capacity_evicts_head`: a state at
capacity and 1001 pushed messages. -/
theorem append_at_capacity_evicts_head_check :
    (TOPIC_DATA, pFull).1 = TOPIC_DATA
    ∧ capState.history.length = MAX_HISTORY
    ∧ (processMessage none false "09:00:00" capState (TOPIC_DATA, pFull)).history
        = capState.history.tail ++ [recordOf none "09:00:00" pFull]
    ∧ (∀ x ∈ msgs1001, x.1 = TOPIC_DATA)
    ∧ msgs1001.length = MAX_HISTORY + 1
    ∧ ((drain none false "09:00:00" initialState msgs1001).history
          = (msgs1001.map fun x => recordOf none "09:00:00" x.2).tail
        ∧ (drain none false "09:00:00" initialState msgs1001).history.length = MAX_HISTORY
        ∧ (drain none false "09:00:00" initialState msgs1001).history.head? =
            (msgs1001.map fun x => recordOf none "09:00:00" x.2)[1]?) := by
  have hmem : ∀ x ∈ msgs1001, x.1 = TOPIC_DATA := by
    intro x hx
    rw [List.eq_of_mem_replicate hx]
  have hlen : msgs1001.length = MAX_HISTORY + 1 := by
    rw [show msgs1001 = List.replicate 1001 (TOPIC_DATA, pFull) from rfl,
      List.length_replicate]
    rfl
  have hcap : capState.history.length = MAX_HISTORY := by
    rw [show capState.history = List.replicate 1000 eSample from rfl,
      List.length_replicate]
    rfl
  exact ⟨rfl, hcap,
    (append_at_capacity_evicts_head none false "09:00:00").1 capState (TOPIC_DATA, pFull)
      rfl hcap,
    hmem, hlen,
    (append_at_capacity_evicts_head none false "09:00:00").2 msgs1001 hmem hlen⟩

/-- C4: the handoff channel preserves push order, and the drain loop
processes the queued items exactly in push order without dropping any: three
pushes A, B, C yield the queue [A, B, C], draining it folds the step over
A then B then C, and when the three are data messages within capacity the
history gains their three entries in push order. -/
theorem drain_order_preserving (model : Option Model) (hc : Bool) (now : String)
    (s : AppState) (A B C : String × Payload) :
    on_message (on_message (on_message [] ⟨A.1, some A.2⟩) ⟨B.1, some B.2⟩) ⟨C.1, some C.2⟩
      = [A, B, C]
    ∧ drain model hc now s [A, B, C]
      = processMessage model hc now (processMessage model hc now
          (processMessage model hc now s A) B) C
    ∧ (A.1 = TOPIC_DATA → B.1 = TOPIC_DATA → C.1 = TOPIC_DATA →
        s.history.length + 3 ≤ MAX_HISTORY →
        (drain model hc now s [A, B, C]).history =
          s.history ++ [recordOf model now A.2, recordOf model now B.2,
            recordOf model now C.2]) := by
  refine ⟨rfl, rfl, ?_⟩
  intro hA hB hC hcap
  have h := drain_history_all_data model hc now [A, B, C] s
    (by
      intro x hx
      simp only [List.mem_cons, List.not_mem_nil, or_false] at hx
      rcases hx with h | h | h <;> subst h <;> assumption)
    (by omega)
  rw [h]
  have hidx : s.history.length + [A, B, C].length - MAX_HISTORY = 0 := by
    simp only [List.length_cons, List.length_nil]
    omega
  rw [hidx, List.drop_zero]
  simp

/- Concrete instantiation of `drain_order_preserving` on three data
messages. -/
theorem drain_order_preserving_check :
    ((TOPIC_DATA, pFull).1 = TOPIC_DATA ∧ initialState.history.length + 3 ≤ MAX_HISTORY)
    ∧ (on_message (on_message (on_message [] ⟨(TOPIC_DATA, pFull).1, some (TOPIC_DATA, pFull).2⟩)
          ⟨(TOPIC_DATA, pFull).1, some (TOPIC_DATA, pFull).2⟩)
          ⟨(TOPIC_DATA, pFull).1, some (TOPIC_DATA, pFull).2⟩
        = [(TOPIC_DATA, pFull), (TOPIC_DATA, pFull), (TOPIC_DATA, pFull)]
      ∧ drain none false "09:00:00" initialState
          [(TOPIC_DATA, pFull), (TOPIC_DATA, pFull), (TOPIC_DATA, pFull)]
        = processMessage none false "09:00:00" (processMessage none false "09:00:00"
            (processMessage none false "09:00:00" initialState (TOPIC_DATA, pFull))
            (TOPIC_DATA, pFull)) (TOPIC_DATA, pFull)
      ∧ ((TOPIC_DATA, pFull).1 = TOPIC_DATA → (TOPIC_DATA, pFull).1 = TOPIC_DATA →
          (TOPIC_DATA, pFull).1 = TOPIC_DATA →
          initialState.history.length + 3 ≤ MAX_HISTORY →
          (drain none false "09:00:00" initialState
              [(TOPIC_DATA, pFull), (TOPIC_DATA, pFull), (TOPIC_DATA, pFull)]).history =
            initialState.history ++ [recordOf none "09:00:00" pFull,
              recordOf none "09:00:00" pFull, recordOf none "09:00:00" pFull])) :=
  ⟨⟨rfl, by decide⟩,
   drain_order_preserving none false "09:00:00" initialState
     (TOPIC_DATA, pFull) (TOPIC_DATA, pFull) (TOPIC_DATA, pFull)⟩

/-- C5: when the model artifact failed to load, every drained matching
message yields the inference result with label N/A and confidence 0, the
history entry is recorded with status N/A, and no outbound publish happens
for any drained message; processing is total, so nothing crashes. -/
theorem model_unavailable_na (hc : Bool) (now : String) (s : AppState)
    (msg : String × Payload) (temp hum gas : ℚ) :
    inferenceResult none temp hum gas = ("N/A", 0)
    ∧ (processMessage none hc now s msg).published = s.published
    ∧ (msg.1 = TOPIC_DATA →
        (processMessage none hc now s msg).history.getLast? =
          some ⟨msg.2.timestamp.getD now, msg.2.temperature.getD 0,
                msg.2.humidity.getD 0, msg.2.gas_ppm.getD 0, "N/A"⟩) := by
  refine ⟨rfl, processMessage_none_published hc now s msg, fun ht => ?_⟩
  rw [processMessage_data_getLast none hc now s msg ht]
  rfl

/- Concrete instantiation of `model_unavailable_na` on a data message. -/
theorem model_unavailable_na_check :
    (TOPIC_DATA, pFull).1 = TOPIC_DATA
    ∧ (inferenceResult none 25 40 100 = ("N/A", 0)
      ∧ (processMessage none true "09:00:00" initialState (TOPIC_DATA, pFull)).published
          = initialState.published
      ∧ ((TOPIC_DATA, pFull).1 = TOPIC_DATA →
          (processMessage none true "09:00:00" initialState (TOPIC_DATA, pFull)).history.getLast? =
            some ⟨pFull.timestamp.getD "09:00:00", pFull.temperature.getD 0,
                  pFull.humidity.getD 0, pFull.gas_ppm.getD 0, "N/A"⟩)) :=
  ⟨rfl, model_unavailable_na true "09:00:00" initialState (TOPIC_DATA, pFull) 25 40 100⟩

/-- C6: a malformed inbound message (decode raises in the callback) is
logged and dropped, leaving the handoff queue unchanged, so well-formed
messages pushed afterwards drain exactly as if the malformed one never
arrived; a JSON payload missing all numeric fields is still processed
without failure, appending an entry whose numeric fields default to 0. -/
theorem malformed_payload_safe (q : List (String × Payload)) (bad good : MqttMsg)
    (hbad : bad.payload = none) (model : Option Model) (hc : Bool) (now : String)
    (s : AppState) :
    on_message q bad = q
    ∧ on_message (on_message q bad) good = on_message q good
    ∧ (∀ ts : Option String,
        (processMessage model hc now s (TOPIC_DATA, ⟨none, none, none, ts⟩)).history.getLast?
          = some (recordOf model now ⟨none, none, none, ts⟩)
        ∧ (recordOf model now ⟨none, none, none, ts⟩).Temp = 0
        ∧ (recordOf model now ⟨none, none, none, ts⟩).Hum = 0
        ∧ (recordOf model now ⟨none, none, none, ts⟩).Gas = 0) := by
  have h1 : on_message q bad = q := by
    simp [on_message, hbad]
  exact ⟨h1, by rw [h1], fun ts =>
    ⟨processMessage_data_getLast model hc now s _ rfl, rfl, rfl, rfl⟩⟩

/- Concrete instantiation of `malformed_payload_safe`: non-decodable bytes
followed by a well-formed message. -/
theorem malformed_payload_safe_check :
    (⟨TOPIC_DATA, none⟩ : MqttMsg).payload = none
    ∧ (on_message [] ⟨TOPIC_DATA, none⟩ = []
      ∧ on_message (on_message [] ⟨TOPIC_DATA, none⟩) ⟨TOPIC_DATA, some pFull⟩
          = on_message [] ⟨TOPIC_DATA, some pFull⟩
      ∧ (∀ ts : Option String,
          (processMessage none false "09:00:00" initialState
              (TOPIC_DATA, ⟨none, none, none, ts⟩)).history.getLast?
            = some (recordOf none "09:00:00" ⟨none, none, none, ts⟩)
          ∧ (recordOf none "09:00:00" (⟨none, none, none, ts⟩ : Payload)).Temp = 0
          ∧ (recordOf none "09:00:00" (⟨none, none, none, ts⟩ : Payload)).Hum = 0
          ∧ (recordOf none "09:00:00" (⟨none, none, none, ts⟩ : Payload)).Gas = 0)) :=
  ⟨rfl, malformed_payload_safe [] ⟨TOPIC_DATA, none⟩ ⟨TOPIC_DATA, some pFull⟩ rfl
    none false "09:00:00" initialState⟩

/-- C7: for a drained data message processed with a loaded model whose
predicted class index carries the maximum class probability, the reported
confidence equals round(max_class_probability * 100, 1). -/
theorem confidence_from_max_probability (m : Model) (hc : Bool) (now : String)
    (s : AppState) (msg : String × Payload) (ht : msg.1 = TOPIC_DATA)
    (hmax :
      (m.proba (msg.2.temperature.getD 0) (msg.2.humidity.getD 0)
          (msg.2.gas_ppm.getD 0)).getD
        (m.predictIdx (msg.2.temperature.getD 0) (msg.2.humidity.getD 0)
          (msg.2.gas_ppm.getD 0)) 0
      = maxClassProbability m (msg.2.temperature.getD 0) (msg.2.humidity.getD 0)
          (msg.2.gas_ppm.getD 0)) :
    (processMessage (some m) hc now s msg).pred_result.confidence =
      pyRound1 (maxClassProbability m (msg.2.temperature.getD 0)
        (msg.2.humidity.getD 0) (msg.2.gas_ppm.getD 0) * 100) := by
  rw [processMessage_some_pred m hc now s msg ht]
  show (inferenceOf m (msg.2.temperature.getD 0) (msg.2.humidity.getD 0)
    (msg.2.gas_ppm.getD 0)).2 = _
  rw [inferenceOf, hmax]

/- Concrete instantiation of `confidence_from_max_probability` on a small
three-class model. -/
theorem confidence_from_max_probability_check :
    (TOPIC_DATA, pFull).1 = TOPIC_DATA
    ∧ (wModel.proba (pFull.temperature.getD 0) (pFull.humidity.getD 0)
          (pFull.gas_ppm.getD 0)).getD
        (wModel.predictIdx (pFull.temperature.getD 0) (pFull.humidity.getD 0)
          (pFull.gas_ppm.getD 0)) 0
      = maxClassProbability wModel (pFull.temperature.getD 0) (pFull.humidity.getD 0)
          (pFull.gas_ppm.getD 0)
    ∧ (processMessage (some wModel) true "09:00:00" initialState
          (TOPIC_DATA, pFull)).pred_result.confidence =
        pyRound1 (maxClassProbability wModel (pFull.temperature.getD 0)
          (pFull.humidity.getD 0) (pFull.gas_ppm.getD 0) * 100) := by
  have hmax : (wModel.proba (pFull.temperature.getD 0) (pFull.humidity.getD 0)
        (pFull.gas_ppm.getD 0)).getD
      (wModel.predictIdx (pFull.temperature.getD 0) (pFull.humidity.getD 0)
        (pFull.gas_ppm.getD 0)) 0
    = maxClassProbability wModel (pFull.temperature.getD 0) (pFull.humidity.getD 0)
        (pFull.gas_ppm.getD 0) := by
    norm_num [wModel, maxClassProbability, max_def]
  exact ⟨rfl, hmax, confidence_from_max_probability wModel true "09:00:00"
    initialState (TOPIC_DATA, pFull) rfl hmax⟩

/-- C8: a drained item whose topic differs from the expected inbound topic
leaves the application state entirely unchanged: current reading, current
prediction, history and the list of outbound publishes are all untouched. -/
theorem other_topic_noop (model : Option Model) (hc : Bool) (now : String)
    (s : AppState) (msg : String × Payload) (ht : msg.1 ≠ TOPIC_DATA) :
    processMessage model hc now s msg = s
    ∧ (processMessage model hc now s msg).sensor_data = s.sensor_data
    ∧ (processMessage model hc now s msg).pred_result = s.pred_result
    ∧ (processMessage model hc now s msg).history = s.history
    ∧ (processMessage model hc now s msg).published = s.published := by
  have h := processMessage_other model hc now s msg ht
  exact ⟨h, by rw [h], by rw [h], by rw [h], by rw [h]⟩

/- Concrete instantiation of `other_topic_noop` on the outbound topic. -/
theorem other_topic_noop_check :
    (TOPIC_PRED, pFull).1 ≠ TOPIC_DATA
    ∧ (processMessage none false "09:00:00" initialState (TOPIC_PRED, pFull)
          = initialState
      ∧ (processMessage none false "09:00:00" initialState (TOPIC_PRED, pFull)).sensor_data
          = initialState.sensor_data
      ∧ (processMessage none false "09:00:00" initialState (TOPIC_PRED, pFull)).pred_result
          = initialState.pred_result
      ∧ (processMessage none false "09:00:00" initialState (TOPIC_PRED, pFull)).history
          = initialState.history
      ∧ (processMessage none false "09:00:00" initialState (TOPIC_PRED, pFull)).published
          = initialState.published) :=
  ⟨by decide, other_topic_noop none false "09:00:00" initialState (TOPIC_PRED, pFull)
    (by decide)⟩

/-- C9 counterexample: the downloaded CSV is built from the dataframe after
reset_index, so its header row is step, time, Temp, Hum, Gas, Status and
not the claimed time, Temp, Hum, Gas, Status. -/
theorem csv_columns_counterexample :
    (csvCells [⟨"12:00:00", 25, 40, 100, "Baik"⟩]).head? =
      some ["step", "time", "Temp", "Hum", "Gas", "Status"]
    ∧ ["step", "time", "Temp", "Hum", "Gas", "Status"]
        ≠ ["time", "Temp", "Hum", "Gas", "Status"] :=
  ⟨rfl, by decide⟩

/-- C9 amended: the CSV export produces a header row followed by exactly one
row per HistoryEntry, comma-separated, with columns step, time, Temp, Hum,
Gas, Status, where step is the sequential index prepended by reset_index
and every row has the six column cells. -/
theorem csv_export_amended (hist : List HistoryEntry) :
    (csvCells hist).length = 1 + hist.length
    ∧ (csvCells hist).head? = some csvHeader
    ∧ csvHeader = ["step", "time", "Temp", "Hum", "Gas", "Status"]
    ∧ (∀ i : Nat, (csvCells hist)[i + 1]? = hist[i]?.map fun e => csvRow i e)
    ∧ (∀ (j : Nat) (e : HistoryEntry), (csvRow j e).length = 6)
    ∧ csvText hist = String.intercalate "\n" ((csvCells hist).map (String.intercalate ",")) := by
  refine ⟨by simp [csvCells, Nat.add_comm], rfl, rfl, ?_, fun j e => rfl, rfl⟩
  intro i
  simp [csvCells, List.getElem?_map, List.getElem?_enum, Option.map_map]
  rfl

/-- C10: invariant kept by every drain step: whenever the history is
non-empty, the last entry carries the same time, temperature, humidity and
gas values as the current sensor_data, because a matching message updates
the current reading and appends the history entry from the same decoded
values. -/
theorem last_entry_matches_current (model : Option Model) (hc : Bool) (now : String)
    (s : AppState) (msg : String × Payload) (msgs : List (String × Payload))
    (hs : lastMatchesCurrent s) :
    lastMatchesCurrent (processMessage model hc now s msg)
    ∧ lastMatchesCurrent (drain model hc now s msgs) :=
  ⟨processMessage_lastMatches model hc now s msg hs,
   drain_lastMatches model hc now msgs s hs⟩

/- Concrete instantiation of `last_entry_matches_current` from the initial
state, whose empty history satisfies the invariant vacuously. -/
theorem last_entry_matches_current_check :
    lastMatchesCurrent initialState
    ∧ (lastMatchesCurrent (processMessage none false "09:00:00" initialState
          (TOPIC_DATA, pFull))
      ∧ lastMatchesCurrent (drain none false "09:00:00" initialState
          [(TOPIC_DATA, pFull), (TOPIC_PRED, pFull)])) :=
  ⟨fun e he => by simp [initialState] at he,
   last_entry_matches_current none false "09:00:00" initialState (TOPIC_DATA, pFull)
     [(TOPIC_DATA, pFull), (TOPIC_PRED, pFull)]
     (fun e he => by simp [initialState] at he)⟩

end AirQuality
